import Mathlib

/-!
Verification of the payram analytics agent's core logic against its
natural-language specification.  The definitions below are shallow
embeddings of the Go source: pure functions are translated directly,
stateful handlers are modelled by explicit state passing over a `World`
record, and external effects (network, process management, crypto) are
supplied as oracle outcomes.  Machine integers are modelled as `Int`
with explicit range checks where Go's `strconv` enforces them.

String primitives from Go's standard library (`strings.Split`,
`strings.HasSuffix`, `strings.TrimSpace`, ...) are embedded as
structurally recursive functions over `List Char` so that every
definition evaluates by kernel reduction.
-/

deriving instance DecidableEq for Except

namespace Agent

/-! ### Embedded Go string primitives -/

/-- `strings.Split` with a single-character separator. -/
def splitOnChar (sep : Char) : List Char → List (List Char)
  | [] => [[]]
  | c :: rest =>
    match splitOnChar sep rest with
    | [] => [[c]]
    | h :: t => if c = sep then [] :: h :: t else (c :: h) :: t

/-- `strings.Split s sep` for a one-character `sep`, producing strings. -/
def goSplit (sep : Char) (s : String) : List String :=
  (splitOnChar sep s.toList).map String.mk

/-- `strings.HasSuffix`. -/
def goHasSuffix (s suffix : String) : Bool :=
  let l := s.toList
  let suf := suffix.toList
  decide (suf.length ≤ l.length) && l.drop (l.length - suf.length) == suf

/-- `strings.TrimSuffix s suffix` when the suffix is known to be present:
drops the suffix's characters from the right. -/
def goDropRight (s : String) (n : Nat) : String :=
  String.mk (s.toList.take (s.toList.length - n))

/-- `strings.HasPrefix`. -/
def goHasPrefix (s prefx : String) : Bool :=
  s.toList.take prefx.toList.length == prefx.toList

/-- `strings.TrimPrefix s p` when the prefix is known to be present. -/
def goDropLeft (s : String) (n : Nat) : String :=
  String.mk (s.toList.drop n)

/-- ASCII whitespace, as Go's `unicode.IsSpace` classifies the ASCII
range (space, tab, newline, vertical tab, form feed, carriage return). -/
def isSpaceGo (c : Char) : Bool :=
  c == ' ' || c == '\t' || c == '\n' || c == '\r' || c == Char.ofNat 11 || c == Char.ofNat 12

/-- `strings.TrimSpace` (for ASCII input). -/
def trimSpace (s : String) : String :=
  String.mk (((s.toList.dropWhile isSpaceGo).reverse.dropWhile isSpaceGo).reverse)

/-! ## Version and compatibility (`internal/agent/update`)

`atoi` embeds Go's `strconv.Atoi` for a 64-bit platform: an optional
sign followed by at least one decimal digit, rejected when the value
falls outside the `int64` range. -/

def atoi (s : String) : Option Int :=
  let (neg, digits) :=
    match s.toList with
    | '-' :: rest => (true, rest)
    | '+' :: rest => (false, rest)
    | l => (false, l)
  if digits = [] ∨ ¬ digits.all Char.isDigit then none
  else
    let n : Nat := digits.foldl (fun a c => a * 10 + (c.toNat - 48)) 0
    let v : Int := if neg then -(n : Int) else (n : Int)
    if v < -(2 ^ 63) ∨ v > 2 ^ 63 - 1 then none else some v

/-- `ParseVersion` from `update`: splits on `"."`, requires exactly three
parts, each parsed by `Atoi`.  `none` models Go's `ok = false`. -/
def parseVersion (s : String) : Option (Int × Int × Int) :=
  match goSplit '.' s with
  | [a, b, c] =>
    match atoi a, atoi b, atoi c with
    | some x, some y, some z => some (x, y, z)
    | _, _, _ => none
  | _ => none

/-- `CompareVersions` from `update`. -/
def compareVersions (a b : String) : Except String Int :=
  match parseVersion a with
  | none => .error ("invalid version " ++ a)
  | some (amaj, amin, apat) =>
    match parseVersion b with
    | none => .error ("invalid version " ++ b)
    | some (bmaj, bmin, bpat) =>
      if amaj ≠ bmaj then (if amaj < bmaj then .ok (-1) else .ok 1)
      else if amin ≠ bmin then (if amin < bmin then .ok (-1) else .ok 1)
      else if apat ≠ bpat then (if apat < bpat then .ok (-1) else .ok 1)
      else .ok 0

/-- `MatchesMax` from `update`: a max constraint may end with `".x"`. -/
def matchesMax (version max : String) : Except String Bool :=
  if goHasSuffix max ".x" then
    let base := goDropRight max 2
    match parseVersion (String.mk (base.toList ++ ['.', '0'])) with
    | none => .error ("invalid max " ++ base)
    | some (majMax, minMax, _) =>
      match parseVersion version with
      | none => .error ("invalid version " ++ version)
      | some (maj, mi, _) =>
        if maj < majMax then .ok true
        else if maj > majMax then .ok false
        else .ok (mi ≤ minMax)
  else
    match compareVersions version max with
    | .error e => .error e
    | .ok cmp => .ok (cmp ≤ 0)

/-- `IsCompatible` from `update`: checks the core version against a
min/max range, returning a reason when incompatible. -/
def isCompatible (coreVersion min max : String) : Bool × String :=
  let minStep : Option (Bool × String) :=
    if min ≠ "" then
      match compareVersions coreVersion min with
      | .error _ => some (false, "invalid core or min version")
      | .ok cmp => if cmp < 0 then some (false, "Requires payram-core >= " ++ min) else none
    else none
  match minStep with
  | some r => r
  | none =>
    if max ≠ "" then
      match matchesMax coreVersion max with
      | .error _ => (false, "invalid max version")
      | .ok ok =>
        if ok then (true, "")
        else if goHasSuffix max ".x" then (false, "Requires payram-core " ++ max)
        else (false, "Requires payram-core <= " ++ max)
    else (true, "")

/-- Major component of a version string, when it parses. -/
def majorOf (v : String) : Option Int := (parseVersion v).map (fun t => t.1)

/-- Minor component of a version string, when it parses. -/
def minorOf (v : String) : Option Int := (parseVersion v).map (fun t => t.2.1)

example : parseVersion "1.2.3" = some (1, 2, 3) := by decide
example : parseVersion "1.2" = none := by decide
example : parseVersion "1.a.3" = none := by decide
example : matchesMax "1.13.4" "1.13.x" = .ok true := by decide
example : matchesMax "1.14.0" "1.13.x" = .ok false := by decide
example : matchesMax "1.13.6" "1.13.5" = .ok false := by decide
example : (isCompatible "1.12.3" "1.12.0" "1.13.x").1 = true := by decide
example : (isCompatible "1.14.0" "1.12.0" "1.13.x").1 = false := by decide

/-- C2 counterexample: `MatchesMax "0.9.0" "1.13.x"` returns `true`
although `major("0.9.0") = 0 ≠ 1`, refuting the claimed equivalence
`matches_max(v, "M.m.x") ≡ (major(v)=M ∧ minor(v)≤m)`. -/
theorem c2_wildcard_counterexample :
    matchesMax "0.9.0" "1.13.x" = Except.ok true ∧ majorOf "0.9.0" ≠ some 1 := by
  decide

/-- C2 (amended): for a parsing version `v` and a trailing-wildcard max
constraint `"M.m.x"`, `MatchesMax` returns `true` iff `major(v) < M` or
(`major(v) = M` and `minor(v) ≤ m`): lower majors are also accepted. -/
theorem c2_matchesMax_wildcard (v max : String) (M m z a b c : Int)
    (hsuf : goHasSuffix max ".x" = true)
    (hmax : parseVersion (String.mk ((goDropRight max 2).toList ++ ['.', '0'])) = some (M, m, z))
    (hv : parseVersion v = some (a, b, c)) :
    matchesMax v max = .ok true ↔ (a < M ∨ (a = M ∧ b ≤ m)) := by
  unfold matchesMax
  rw [hsuf]
  simp only [if_true, hmax, hv]
  rcases lt_trichotomy a M with h | h | h
  · simp [h, le_of_lt h]
  · simp [h, lt_irrefl]
  · have h1 : ¬ a < M := not_lt_of_gt h
    have h2 : a ≠ M := ne_of_gt h
    simp [h1, h, h2, not_lt_of_gt h]

/-- C2 witness: the amended equivalence evaluated at `v = "0.9.0"`,
`max = "1.13.x"`. -/
theorem c2_matchesMax_wildcard_witness :
    matchesMax "0.9.0" "1.13.x" = Except.ok true :=
  (c2_matchesMax_wildcard "0.9.0" "1.13.x" 1 13 0 0 9 0
    (by decide) (by decide) (by decide)).mpr (by decide)

/-- C5 counterexample: `ParseVersion "1.2.-3"` succeeds although the
third component is negative, refuting "negative components are
rejected". -/
theorem c5_negative_component_accepted :
    parseVersion "1.2.-3" = some (1, 2, -3) ∧ (-3 : Int) < 0 := by
  decide

/-- C5 (amended): `ParseVersion` accepts a string iff it consists of
exactly three dot-separated components each accepted by Go's `Atoi`
(optionally signed decimal integers in the `int64` range); negative
components are therefore accepted. -/
theorem c5_parseVersion_accepts_iff (s : String) :
    (parseVersion s).isSome = true ↔
      ((goSplit '.' s).length = 3 ∧ ∀ p ∈ goSplit '.' s, (atoi p).isSome = true) := by
  unfold parseVersion
  cases h : goSplit '.' s with
  | nil => simp
  | cons a t =>
    cases t with
    | nil => simp
    | cons b t2 =>
      cases t2 with
      | nil => simp
      | cons c t3 =>
        cases t3 with
        | nil =>
          cases ha : atoi a <;> cases hb : atoi b <;> cases hc : atoi c <;>
            simp_all
        | cons d t4 => simp

/-! ## Secret store (`internal/agent/secrets`)

`secrets.Load` first consults the `OPENAI_API_KEY` environment variable
and only reads the on-disk `state/secrets.json` when the variable is
unset or empty.  The disk is modelled by its observable read outcomes. -/

structure Secrets where
  openAIAPIKey : String
  deriving DecidableEq

/-- Observable states of the secrets file as seen by `os.ReadFile` plus
`json.Unmarshal`: absent, unreadable, unparsable, or a parsed record. -/
inductive SecretsDisk where
  | missing
  | ioError
  | corrupt
  | record (s : Secrets)
  deriving DecidableEq

/-- `secrets.Load`: `envKey` is the value of `OPENAI_API_KEY` (empty
string = unset).  Returns the record and its source, or a read error. -/
def secretsLoad (envKey : String) (disk : SecretsDisk) : Except String (Secrets × String) :=
  if envKey ≠ "" then .ok (⟨envKey⟩, "env")
  else
    match disk with
    | .missing => .ok (⟨""⟩, "missing")
    | .ioError => .error "read error"
    | .corrupt => .error "unmarshal error"
    | .record s => if s.openAIAPIKey ≠ "" then .ok (s, "state") else .ok (⟨""⟩, "missing")

/-- C6: when `OPENAI_API_KEY` is set non-empty, `Load` returns that
value with source `"env"`, and the result is independent of the disk
state: two runs with the same environment but different disk states
agree. -/
theorem c6_env_wins_and_disk_independent (envKey : String) (disk disk' : SecretsDisk)
    (henv : envKey ≠ "") :
    secretsLoad envKey disk = .ok (⟨envKey⟩, "env") ∧
    secretsLoad envKey disk = secretsLoad envKey disk' := by
  unfold secretsLoad
  simp [henv]

/-- C6 witness: a set environment key beats a conflicting disk record
and a missing file alike. -/
theorem c6_env_wins_witness :
    secretsLoad "sk-env" (.record ⟨"sk-disk"⟩) = .ok (⟨"sk-env"⟩, "env") ∧
    secretsLoad "sk-env" (.record ⟨"sk-disk"⟩) = secretsLoad "sk-env" .missing :=
  c6_env_wins_and_disk_independent "sk-env" (.record ⟨"sk-disk"⟩) .missing (by decide)

/-! ## Admin auth middleware (`internal/agent/admin/middleware.go`)

IPv4 addresses are modelled as their 32-bit numeric value; the
embedding covers the IPv4 form of `net.ParseCIDR` (four dot-separated
decimal octets without leading zeros and a decimal prefix length of at
most 32, per modern Go's parsing). -/

def digitsToNat (l : List Char) : Nat :=
  l.foldl (fun a c => a * 10 + (c.toNat - 48)) 0

/-- One IPv4 address field: 1-3 decimal digits, no leading zero, ≤ 255. -/
def parseOctet (s : String) : Option Nat :=
  let l := s.toList
  if l = [] ∨ ¬ l.all Char.isDigit then none
  else if 1 < l.length ∧ l.headD ' ' = '0' then none
  else
    let v := digitsToNat l
    if 255 < v then none else some v

/-- `net.ParseIP` for dotted-quad IPv4. -/
def parseIPv4 (s : String) : Option Nat :=
  match goSplit '.' s with
  | [a, b, c, d] =>
    match parseOctet a, parseOctet b, parseOctet c, parseOctet d with
    | some x, some y, some z, some w => some (((x * 256 + y) * 256 + z) * 256 + w)
    | _, _, _, _ => none
  | _ => none

/-- The prefix-length part of a CIDR: decimal digits with value ≤ 32. -/
def parseMaskBits (s : String) : Option Nat :=
  let l := s.toList
  if l = [] ∨ ¬ l.all Char.isDigit then none
  else
    let n := digitsToNat l
    if n ≤ 32 then some n else none

/-- The network mask for a prefix length. -/
def maskOf (bits : Nat) : Nat := 2 ^ 32 - 2 ^ (32 - bits)

/-- `net.IPNet` (IPv4): the masked network base and the prefix length. -/
structure IPNet where
  base : Nat
  bits : Nat
  deriving DecidableEq

/-- `IPNet.Contains`. -/
def ipnetContains (n : IPNet) (ip : Nat) : Bool :=
  ip &&& maskOf n.bits == n.base &&& maskOf n.bits

/-- `net.ParseCIDR` (IPv4 form), returning the masked network. -/
def parseCIDR (s : String) : Option IPNet :=
  match goSplit '/' s with
  | [a, m] =>
    match parseIPv4 a, parseMaskBits m with
    | some ip, some bits => some ⟨ip &&& maskOf bits, bits⟩
    | _, _ => none
  | _ => none

/-- `net.IP.IsLoopback` for IPv4: the first octet is 127. -/
def isLoopback (ip : Nat) : Bool := ip / 2 ^ 24 == 127

/-- `parseAllowlist`'s loop body: empty entries (after trimming) and
entries `net.ParseCIDR` rejects are skipped silently. -/
def allowlistStep (acc : List IPNet) (entry : String) : List IPNet :=
  if trimSpace entry = "" then acc
  else
    match parseCIDR (trimSpace entry) with
    | none => acc
    | some n => acc ++ [n]

/-- `parseAllowlist` from `middleware.go`. -/
def parseAllowlist (raw : String) : List IPNet :=
  (goSplit ',' raw).foldl allowlistStep []

/-- `adminMiddleware.isAllowed`: `none` models an unparseable remote
address (`net.ParseIP` returned nil). -/
def isAllowed (allowed : List IPNet) (ip : Option Nat) : Bool :=
  match ip with
  | none => false
  | some a => if isLoopback a then true else allowed.any (fun n => ipnetContains n a)

/-- Outcome of the middleware: the request is forwarded to the wrapped
handler or rejected with an HTTP status and error code. -/
inductive AuthResult where
  | forwarded
  | rejected (status : Nat) (code : String)
  deriving DecidableEq

/-- `adminMiddleware.wrap` from `middleware.go`. -/
def adminWrap (token : String) (allowed : List IPNet) (remoteIP : Option Nat)
    (authHeader : String) : AuthResult :=
  if token = "" then .rejected 500 "ADMIN_TOKEN_MISSING"
  else if isAllowed allowed remoteIP = false then .rejected 403 "FORBIDDEN_IP"
  else if goHasPrefix authHeader "Bearer " = false then .rejected 401 "UNAUTHORIZED"
  else if trimSpace (goDropLeft authHeader 7) ≠ token then .rejected 401 "UNAUTHORIZED"
  else .forwarded

example : adminWrap "t" [] (some 2130706433) "Bearer t" = .forwarded := by decide
example : adminWrap "t" [] (some 2130706433) "Bearer wrong" = .rejected 401 "UNAUTHORIZED" := by decide
example : parseCIDR "10.0.0.0/8" = some ⟨10 * 2 ^ 24, 8⟩ := by decide
example : parseCIDR "garbage" = none := by decide
example : parseCIDR "10.0.0.0/33" = none := by decide

/-- C4: the auth middleware applies its checks in a fixed order and
rejects with the first failing one: 500 `ADMIN_TOKEN_MISSING` when no
token is configured; then 403 `FORBIDDEN_IP` when the remote address is
neither loopback nor inside an allowlisted CIDR (including unparseable
addresses); then 401 `UNAUTHORIZED` when the bearer token is missing or
wrong; otherwise the request is forwarded. -/
theorem c4_auth_middleware_order :
    (∀ allowed ip auth, adminWrap "" allowed ip auth = .rejected 500 "ADMIN_TOKEN_MISSING")
    ∧ (∀ tok allowed auth, tok ≠ "" →
        adminWrap tok allowed none auth = .rejected 403 "FORBIDDEN_IP")
    ∧ (∀ tok allowed a auth, tok ≠ "" → isLoopback a = false →
        allowed.any (fun n => ipnetContains n a) = false →
        adminWrap tok allowed (some a) auth = .rejected 403 "FORBIDDEN_IP")
    ∧ (∀ tok allowed ip auth, tok ≠ "" → isAllowed allowed ip = true →
        (goHasPrefix auth "Bearer " = false ∨ trimSpace (goDropLeft auth 7) ≠ tok) →
        adminWrap tok allowed ip auth = .rejected 401 "UNAUTHORIZED")
    ∧ (∀ tok allowed ip auth, tok ≠ "" → isAllowed allowed ip = true →
        goHasPrefix auth "Bearer " = true → trimSpace (goDropLeft auth 7) = tok →
        adminWrap tok allowed ip auth = .forwarded)
    ∧ (∀ allowed a, isAllowed allowed (some a) =
        (isLoopback a || allowed.any (fun n => ipnetContains n a))) := by
  refine ⟨?_, ?_, ?_, ?_, ?_, ?_⟩
  · intro allowed ip auth; simp [adminWrap]
  · intro tok allowed auth htok; simp [adminWrap, htok, isAllowed]
  · intro tok allowed a auth htok hl hc
    simp [adminWrap, htok, isAllowed, hl, hc]
  · intro tok allowed ip auth htok hall hbad
    rcases hbad with h | h <;> simp [adminWrap, htok, hall, h]
  · intro tok allowed ip auth htok hall hpre heq
    simp [adminWrap, htok, hall, hpre, heq]
  · intro allowed a
    cases h : isLoopback a <;> simp [isAllowed, h]

/-- C4 witness: a loopback client with the right bearer token is
forwarded; evaluated at `127.0.0.1` (`2130706433`). -/
theorem c4_auth_middleware_order_witness :
    adminWrap "tok" [] (some 2130706433) "Bearer tok" = .forwarded :=
  c4_auth_middleware_order.2.2.2.2.1 "tok" [] (some 2130706433) "Bearer tok"
    (by decide) (by decide) (by decide) (by decide)

/-- Membership in the allowlist fold: an entry of the result is either
carried over from the accumulator or parsed from some list element. -/
theorem mem_foldl_allowlistStep (l : List String) (acc : List IPNet) (x : IPNet) :
    x ∈ l.foldl allowlistStep acc ↔
      x ∈ acc ∨ ∃ e ∈ l, parseCIDR (trimSpace e) = some x := by
  induction l generalizing acc with
  | nil => simp
  | cons e t ih =>
    have hempty : parseCIDR "" = none := by decide
    simp only [List.foldl_cons, ih]
    by_cases h : trimSpace e = ""
    · have hp : parseCIDR (trimSpace e) = none := by rw [h]; exact hempty
      simp only [allowlistStep, h, if_true]
      simp [hp]
    · simp only [allowlistStep, h, if_false]
      cases hp : parseCIDR (trimSpace e) with
      | none => simp [hp]
      | some n =>
        constructor
        · rintro (hx | ⟨f, hf, hpf⟩)
          · rcases List.mem_append.mp hx with hx' | hx'
            · exact Or.inl hx'
            · have hxn : x = n := by simpa using hx'
              subst hxn
              exact Or.inr ⟨e, List.mem_cons_self e t, hp⟩
          · exact Or.inr ⟨f, List.mem_cons_of_mem _ hf, hpf⟩
        · rintro (hx | ⟨f, hf, hpf⟩)
          · exact Or.inl (List.mem_append.mpr (Or.inl hx))
          · rcases List.mem_cons.mp hf with rfl | hf'
            · rw [hp] at hpf
              have hnx : n = x := by injection hpf
              exact Or.inl (List.mem_append.mpr (Or.inr (by simp [hnx])))
            · exact Or.inr ⟨f, hf', hpf⟩

/-- C10: `parseAllowlist` silently skips empty and malformed entries,
so the result contains only well-formed CIDR networks; when every entry
is malformed the allowlist is empty and only loopback (parsed) source
addresses pass the IP gate. -/
theorem c10_parseAllowlist_skips_malformed :
    (∀ raw n, n ∈ parseAllowlist raw →
        ∃ e ∈ goSplit ',' raw, parseCIDR (trimSpace e) = some n)
    ∧ (∀ raw, (∀ e ∈ goSplit ',' raw, parseCIDR (trimSpace e) = none) →
        parseAllowlist raw = [])
    ∧ (∀ raw ip, (∀ e ∈ goSplit ',' raw, parseCIDR (trimSpace e) = none) →
        isAllowed (parseAllowlist raw) ip =
          (match ip with | some a => isLoopback a | none => false)) := by
  have hempty : ∀ raw, (∀ e ∈ goSplit ',' raw, parseCIDR (trimSpace e) = none) →
      parseAllowlist raw = [] := by
    intro raw hmal
    have : ∀ n, n ∉ parseAllowlist raw := by
      intro n hn
      rcases (mem_foldl_allowlistStep _ _ _).mp hn with h | ⟨e, he, hpe⟩
      · cases h
      · rw [hmal e he] at hpe; cases hpe
    cases h : parseAllowlist raw with
    | nil => rfl
    | cons a t => exact absurd (h ▸ List.mem_cons_self a t) (this a)
  refine ⟨?_, hempty, ?_⟩
  · intro raw n hn
    rcases (mem_foldl_allowlistStep _ _ _).mp hn with h | h
    · cases h
    · exact h
  · intro raw ip hmal
    rw [hempty raw hmal]
    cases ip with
    | none => rfl
    | some a => cases h : isLoopback a <;> simp [isAllowed, h]

/-- C10 witness: with an allowlist whose entries are all malformed, a
loopback client passes the gate and a non-loopback client does not. -/
theorem c10_parseAllowlist_witness :
    isAllowed (parseAllowlist "garbage, 10.0.0.0/33") (some 2130706433) = true :=
  (c10_parseAllowlist_skips_malformed.2.2 "garbage, 10.0.0.0/33" (some 2130706433)
    (by decide)).trans (by decide)

/-! ## Log ring buffer (`internal/agent/supervisor`, `ringBuffer`)

`lines` is the fixed-capacity backing slice, `next` the next write
position, `count` the number of valid entries.  `tail` returns `none`
where Go returns a nil slice. -/

structure ringBuffer where
  lines : List String
  next : Nat
  count : Nat
  deriving DecidableEq

/-- `newRingBuffer`: a non-positive size falls back to 200. -/
def newRingBuffer (size : Int) : ringBuffer :=
  let s : Nat := if size ≤ 0 then 200 else size.toNat
  ⟨List.replicate s "", 0, 0⟩

/-- `ringBuffer.Add`. -/
def ringBuffer.add (r : ringBuffer) (line : String) : ringBuffer :=
  { lines := r.lines.set r.next line
    next := (r.next + 1) % r.lines.length
    count := if r.count < r.lines.length then r.count + 1 else r.count }

/-- `ringBuffer.Tail`: `none` models the nil slice Go returns for
`n <= 0` or an empty buffer. -/
def ringBuffer.tail (r : ringBuffer) (n : Int) : Option (List String) :=
  if n ≤ 0 ∨ r.count = 0 then none
  else
    let m := min n.toNat r.count
    let start := (r.next + r.lines.length - m) % r.lines.length
    some ((List.range m).map fun i => r.lines.getD ((start + i) % r.lines.length) "")

/-- The last `n` elements of a list, in order. -/
def lastN (l : List α) (n : Nat) : List α := l.drop (l.length - n)

/-- Abstract effect of one append on the retained-lines model: keep at
most `C` lines, dropping the oldest. -/
def pushModel (C : Nat) (l : List String) (x : String) : List String :=
  if l.length < C then l ++ [x] else l.drop 1 ++ [x]

/-- Representation invariant: buffer `b` of capacity `C` holds exactly
the lines of `l` (oldest first), ending just before `b.next`. -/
def RBInv (C : Nat) (l : List String) (b : ringBuffer) : Prop :=
  b.lines.length = C ∧ b.count = l.length ∧ l.length ≤ C ∧ b.next < C ∧
    ∀ i, i < l.length →
      b.lines.getD ((b.next + (C - l.length) + i) % C) "" = l.getD i ""

theorem rb_mod_ne_of_lt {next d C : Nat} (hnext : next < C) (hd0 : 0 < d)
    (hdC : d < C) : (next + d) % C ≠ next := by
  intro h
  have h1 : next + d ≡ next + 0 [MOD C] := by
    unfold Nat.ModEq
    rw [h, Nat.add_zero, Nat.mod_eq_of_lt hnext]
  have h2 : d ≡ 0 [MOD C] := Nat.ModEq.add_left_cancel' next h1
  have h3 : C ∣ d := Nat.modEq_zero_iff_dvd.mp h2
  exact absurd (Nat.le_of_dvd hd0 h3) (not_le_of_lt hdC)

theorem rb_getD_set_ne (l : List String) (i j : Nat) (a : String) (h : i ≠ j) :
    (l.set i a).getD j "" = l.getD j "" := by
  rw [List.getD_eq_getElem?_getD, List.getD_eq_getElem?_getD, List.getElem?_set_ne h]

theorem RBInv.new (C : Nat) (hC : 0 < C) : RBInv C [] (newRingBuffer (C : Int)) := by
  have hpos : ¬ ((C : Int) ≤ 0) := by omega
  refine ⟨?_, rfl, by simp, ?_, ?_⟩
  · simp [newRingBuffer, hpos]
  · simpa [newRingBuffer, hpos] using hC
  · intro i hi; cases hi

theorem RBInv.add {C : Nat} {l : List String} {b : ringBuffer} (x : String)
    (h : RBInv C l b) (hC : 0 < C) : RBInv C (pushModel C l x) (b.add x) := by
  obtain ⟨hlen, hcnt, hle, hnext, hcontent⟩ := h
  have hlines : (b.add x).lines = b.lines.set b.next x := rfl
  have hnext' : (b.add x).next = (b.next + 1) % C := by
    simp [ringBuffer.add, hlen]
  by_cases hlt : l.length < C
  · have hpm : pushModel C l x = l ++ [x] := if_pos hlt
    refine ⟨?_, ?_, ?_, ?_, ?_⟩
    · rw [hlines, List.length_set, hlen]
    · rw [hpm]
      simp [ringBuffer.add, hlen, hcnt, hlt]
    · rw [hpm]; simp; omega
    · rw [hnext']; exact Nat.mod_lt _ hC
    · intro i hi
      rw [hpm] at hi ⊢
      simp only [List.length_append, List.length_singleton] at hi ⊢
      rw [hlines, hnext']
      have hpos : ((b.next + 1) % C + (C - (l.length + 1)) + i) % C
          = (b.next + ((C - l.length) + i)) % C := by
        rw [Nat.add_assoc, Nat.mod_add_mod]
        exact congrArg (· % C) (by omega)
      rw [hpos]
      rcases Nat.lt_or_ge i l.length with hil | hil
      · have hne : (b.next + ((C - l.length) + i)) % C ≠ b.next :=
          rb_mod_ne_of_lt hnext (by omega) (by omega)
        rw [rb_getD_set_ne _ _ _ _ (Ne.symm hne)]
        rw [List.getD_append _ _ _ _ hil]
        have hcc := hcontent i hil
        rw [Nat.add_assoc] at hcc
        exact hcc
      · have hieq : i = l.length := by omega
        subst hieq
        have hposn : (b.next + ((C - l.length) + l.length)) % C = b.next := by
          have harg : b.next + ((C - l.length) + l.length) = b.next + C := by omega
          rw [harg, Nat.add_mod_right, Nat.mod_eq_of_lt hnext]
        rw [hposn]
        rw [List.getD_eq_getElem?_getD, List.getElem?_set_self (by omega), Option.getD_some]
        rw [List.getD_append_right _ _ _ _ (le_refl _), Nat.sub_self]
        rfl
  · have hceq : l.length = C := by omega
    have hpm : pushModel C l x = l.drop 1 ++ [x] := if_neg hlt
    have hplen : (l.drop 1 ++ [x]).length = C := by
      simp [List.length_drop]; omega
    refine ⟨?_, ?_, ?_, ?_, ?_⟩
    · rw [hlines, List.length_set, hlen]
    · rw [hpm, hplen]
      simp [ringBuffer.add, hlen, hcnt, hlt, hceq]
    · rw [hpm, hplen]
    · rw [hnext']; exact Nat.mod_lt _ hC
    · intro i hi
      rw [hpm] at hi ⊢
      rw [hplen] at hi
      rw [hlines, hnext']
      have hpos : ((b.next + 1) % C + (C - (l.drop 1 ++ [x]).length) + i) % C
          = (b.next + (1 + i)) % C := by
        rw [hplen, Nat.add_assoc, Nat.mod_add_mod]
        exact congrArg (· % C) (by omega)
      rw [hpos]
      rcases Nat.lt_or_ge i (C - 1) with hil | hil
      · have hne : (b.next + (1 + i)) % C ≠ b.next :=
          rb_mod_ne_of_lt hnext (by omega) (by omega)
        rw [rb_getD_set_ne _ _ _ _ (Ne.symm hne)]
        have hcc := hcontent (i + 1) (by omega)
        have harg : (b.next + (C - l.length) + (i + 1)) % C = (b.next + (1 + i)) % C :=
          congrArg (· % C) (by omega)
        rw [harg] at hcc
        rw [hcc]
        rw [List.getD_append _ _ _ _ (show i < (l.drop 1).length by
          simp [List.length_drop]; omega)]
        rw [List.getD_eq_getElem _ _ (show i + 1 < l.length by omega),
          List.getD_eq_getElem _ _ (show i < (l.drop 1).length by
            simp [List.length_drop]; omega)]
        rw [List.getElem_drop]
        congr 1
        omega
      · have hieq : i = C - 1 := by omega
        subst hieq
        have hposn : (b.next + (1 + (C - 1))) % C = b.next := by
          have harg : b.next + (1 + (C - 1)) = b.next + C := by omega
          rw [harg, Nat.add_mod_right, Nat.mod_eq_of_lt hnext]
        rw [hposn]
        rw [List.getD_eq_getElem?_getD, List.getElem?_set_self (by omega), Option.getD_some]
        rw [List.getD_append_right _ _ _ _ (show (l.drop 1).length ≤ C - 1 by
          simp [List.length_drop]; omega)]
        simp [List.length_drop, hceq]

theorem RBInv.foldl {C : Nat} (xs : List String) (hC : 0 < C) :
    ∀ (l : List String) (b : ringBuffer), RBInv C l b →
      RBInv C (xs.foldl (pushModel C) l) (xs.foldl ringBuffer.add b) := by
  induction xs with
  | nil => intro l b h; exact h
  | cons x xs ih =>
    intro l b h
    exact ih _ _ (h.add x hC)

/-- Folding the abstract push keeps exactly the last `min k C` lines. -/
theorem pushModel_foldl {C : Nat} (hC : 0 < C) (xs : List String) :
    ∀ (l : List String), l.length ≤ C →
      xs.foldl (pushModel C) l = lastN (l ++ xs) (min (l.length + xs.length) C) := by
  induction xs with
  | nil =>
    intro l hl
    simp [lastN, Nat.min_eq_left hl]
  | cons x xs ih =>
    intro l hl
    rw [List.foldl_cons]
    by_cases hlt : l.length < C
    · have hpm : pushModel C l x = l ++ [x] := if_pos hlt
      rw [hpm, ih (l ++ [x]) (by simp; omega)]
      have hl1 : (l ++ [x]) ++ xs = l ++ x :: xs := by
        rw [List.append_assoc, List.singleton_append]
      rw [hl1]
      have hminEq : (l ++ [x]).length + xs.length = l.length + (x :: xs).length := by
        simp only [List.length_append, List.length_cons, List.length_nil]
        omega
      rw [hminEq]
    · have hceq : l.length = C := by omega
      have hpm : pushModel C l x = l.drop 1 ++ [x] := if_neg hlt
      have hplen : (l.drop 1 ++ [x]).length = C := by
        simp [List.length_drop]; omega
      rw [hpm, ih (l.drop 1 ++ [x]) (le_of_eq hplen)]
      rw [hplen]
      have hmin1 : min (C + xs.length) C = C := by omega
      have hmin2 : min (l.length + (x :: xs).length) C = C := by
        simp only [List.length_cons]; omega
      rw [hmin1, hmin2]
      unfold lastN
      have hlen1 : ((l.drop 1 ++ [x]) ++ xs).length = C + xs.length := by
        simp [List.length_drop]; omega
      have hlen2 : (l ++ x :: xs).length = C + (xs.length + 1) := by
        simp only [List.length_append, List.length_cons]
        omega
      rw [hlen1, hlen2]
      have hidx1 : C + xs.length - C = xs.length := by omega
      have hidx2 : C + (xs.length + 1) - C = xs.length + 1 := by omega
      rw [hidx1, hidx2]
      have hr : (l ++ x :: xs).drop (xs.length + 1)
          = ((l ++ x :: xs).drop 1).drop xs.length := by
        rw [List.drop_drop]
        congr 1
        omega
      rw [hr]
      rw [List.drop_append_of_le_length (show (1 : Nat) ≤ l.length by omega)]
      congr 1
      rw [List.append_assoc, List.singleton_append]

/-- The concrete `tail` read off a buffer satisfying the invariant. -/
theorem ringBuffer.tail_of_inv {C : Nat} (hC : 0 < C) (l : List String)
    (b : ringBuffer) (h : RBInv C l b) (n : Int) :
    (b.tail n).getD [] = lastN l (min n.toNat l.length) := by
  obtain ⟨hlen, hcnt, hle, hnext, hcontent⟩ := h
  unfold ringBuffer.tail
  by_cases hn : n ≤ 0
  · rw [if_pos (Or.inl hn)]
    have : n.toNat = 0 := Int.toNat_of_nonpos hn
    simp [this, lastN]
  · by_cases hc : b.count = 0
    · rw [if_pos (Or.inr hc)]
      have hl0 : l.length = 0 := by omega
      rw [List.length_eq_zero.mp hl0]
      simp [lastN]
    · rw [if_neg (by push_neg; exact ⟨by omega, hc⟩)]
      simp only [Option.getD_some]
      rw [hlen, hcnt]
      set m := min n.toNat l.length with hm
      have hm_le : m ≤ l.length := min_le_right _ _
      have hm_pos : 0 < m := by
        have h1 : 0 < n.toNat := by omega
        have h2 : 0 < l.length := by omega
        omega
      apply List.ext_getElem
      · simp only [List.length_map, List.length_range, lastN, List.length_drop]
        omega
      · intro i h1 h2
        have him : i < m := by simpa using h1
        simp only [List.getElem_map, List.getElem_range]
        have hpos : ((b.next + C - m) % C + i) % C
            = (b.next + (C - l.length) + (l.length - m + i)) % C := by
          rw [Nat.mod_add_mod]
          exact congrArg (· % C) (by omega)
        rw [hpos]
        have hcc := hcontent (l.length - m + i) (by omega)
        rw [List.getD_eq_getElem _ _ (show l.length - m + i < l.length by omega)] at hcc
        have hbound : l.length - m + i < l.length := by omega
        have hgoal : (lastN l m)[i] = l[l.length - m + i] := by
          unfold lastN
          rw [List.getElem_drop]
        rw [hgoal]
        exact hcc

/-- C8: appending `k` lines to a fresh buffer of capacity `C > 0` and
reading `Tail(N)` yields the last `min(N, min(k, C))` appended lines in
insertion order (treating Go's nil result as the empty sequence); in
particular `Tail(0)` is empty. -/
theorem c8_ring_buffer_tail (C : Nat) (xs : List String) (N : Int) (hC : 0 < C) :
    ((xs.foldl ringBuffer.add (newRingBuffer (C : Int))).tail N).getD []
      = lastN xs (min N.toNat (min xs.length C)) := by
  have hinv := RBInv.foldl xs hC [] (newRingBuffer (C : Int)) (RBInv.new C hC)
  have hL := pushModel_foldl hC xs [] (by simp)
  simp only [List.nil_append, List.length_nil, Nat.zero_add] at hL
  rw [ringBuffer.tail_of_inv hC _ _ hinv N]
  rw [hL]
  have hlast_len : (lastN xs (min xs.length C)).length = min xs.length C := by
    unfold lastN
    simp [List.length_drop]
    omega
  rw [hlast_len]
  unfold lastN
  rw [List.length_drop, List.drop_drop]
  congr 1
  omega

/-- C8 witness: capacity 3, four appends, `Tail 2` returns the last two
lines. -/
theorem c8_ring_buffer_tail_witness :
    ((["a", "b", "c", "d"].foldl ringBuffer.add (newRingBuffer (3 : Int))).tail 2).getD []
      = ["c", "d"] :=
  (c8_ring_buffer_tail 3 ["a", "b", "c", "d"] 2 (by decide)).trans (by decide)

/-! ## Supervisor log access (`Supervisor.Logs`)

The supervisor holds one ring buffer per child (`chat`, `mcp`); `Logs`
dispatches on the component name and returns the buffer's `Tail`, or
`nil` (`none`) for unknown names. -/

structure Supervisor where
  chatBuf : ringBuffer
  mcpBuf : ringBuffer

/-- `supervisor.New` as far as log buffers are concerned: each child
gets `newRingBuffer cfg.BufferLines`, with `New` defaulting a
non-positive `BufferLines` to 200 first. -/
def supervisorNew (bufferLines : Int) : Supervisor :=
  let bl : Int := if bufferLines ≤ 0 then 200 else bufferLines
  ⟨newRingBuffer bl, newRingBuffer bl⟩

/-- `Supervisor.Logs`. -/
def Supervisor.logs (s : Supervisor) (component : String) (tail : Int) :
    Option (List String) :=
  if component = "chat" then s.chatBuf.tail tail
  else if component = "mcp" then s.mcpBuf.tail tail
  else none

/-- C7 counterexample: for the known component `"chat"` with an empty
log buffer, `Logs` returns nil exactly as it does for unknown names, so
the nil result is not reserved to unknown components. -/
theorem c7_known_component_nil :
    (supervisorNew 200).logs "chat" 5 = none ∧
    (supervisorNew 200).logs "unknown" 5 = none := by
  constructor
  · rfl
  · rfl

/-- C7 (amended): `Logs` returns nil for every unknown component name,
and for known names it returns the ring buffer's `Tail`, which is
itself nil when the requested tail is non-positive or the buffer is
empty — so nil does not distinguish an unknown name from a known
component with an empty buffer. A known component with a non-empty
buffer and positive tail yields a non-nil sequence. -/
theorem c7_logs_nil_behaviour :
    (∀ (s : Supervisor) (name : String) (t : Int), name ≠ "chat" → name ≠ "mcp" →
      s.logs name t = none)
    ∧ (∀ (s : Supervisor) (t : Int), s.logs "chat" t = s.chatBuf.tail t)
    ∧ (∀ (s : Supervisor) (t : Int), s.logs "mcp" t = s.mcpBuf.tail t)
    ∧ (∀ (b : ringBuffer) (t : Int), t ≤ 0 ∨ b.count = 0 → b.tail t = none)
    ∧ (∀ (b : ringBuffer) (t : Int), 0 < t → b.count ≠ 0 → (b.tail t).isSome = true) := by
  refine ⟨?_, ?_, ?_, ?_, ?_⟩
  · intro s name t h1 h2
    simp [Supervisor.logs, h1, h2]
  · intro s t; simp [Supervisor.logs]
  · intro s t; simp [Supervisor.logs]
  · intro b t h
    simp [ringBuffer.tail, h]
  · intro b t h1 h2
    rw [ringBuffer.tail, if_neg (by push_neg; exact ⟨by omega, h2⟩)]
    rfl

/-- C7 witness: a fresh chat buffer is nil; after one append it is
non-nil. -/
theorem c7_logs_nil_behaviour_witness :
    (supervisorNew 200).logs "sidecar" 5 = none ∧
    (((newRingBuffer (2 : Int)).add "line").tail 1).isSome = true :=
  ⟨c7_logs_nil_behaviour.1 (supervisorNew 200) "sidecar" 5 (by decide) (by decide),
   c7_logs_nil_behaviour.2.2.2.2 ((newRingBuffer (2 : Int)).add "line") 1
     (by decide) (by decide)⟩

/-! ## Release layout (`internal/agent/update/layout.go`)

The symlink state at the home root: the `current` and `previous` links
and the two temp names used for atomic swaps (`none` = link absent).
`UpdateSymlinks` is embedded with a fault profile injecting failures at
each fallible filesystem call; a failing call leaves the filesystem
unchanged, and `os.Symlink` also fails on an empty target (ENOENT). -/

structure SymFS where
  current : Option String
  previous : Option String
  tmpCur : Option String
  tmpPrev : Option String
  deriving DecidableEq

/-- Injected failure outcomes for `UpdateSymlinks`' filesystem calls. -/
structure SymFaults where
  ensureDirsFail : Bool
  prevSymlinkFail : Bool
  prevRenameFail : Bool
  curSymlinkFail : Bool
  curRenameFail : Bool
  deriving DecidableEq

/-- No injected failures. -/
def noFaults : SymFaults := ⟨false, false, false, false, false⟩

/-- First phase of `UpdateSymlinks`: when the old `current` target is
non-empty, remove the previous temp name, create the temp symlink to
the old target and rename it onto `previous`; on any failure the temp
is cleaned up and an error is reported. -/
def promotePrevious (fp : SymFaults) (fs : SymFS) (oldTarget : String) : Bool × SymFS :=
  if oldTarget ≠ "" then
    let fs1 : SymFS := { fs with tmpPrev := none }
    if fp.prevSymlinkFail then (true, fs1)
    else
      let fs2 : SymFS := { fs1 with tmpPrev := some oldTarget }
      if fp.prevRenameFail then (true, { fs2 with tmpPrev := none })
      else (false, { fs2 with previous := some oldTarget, tmpPrev := none })
  else (false, fs)

/-- Second phase of `UpdateSymlinks`: remove the current temp name,
create the temp symlink to the new target (`os.Symlink` fails on an
empty target) and rename it onto `current`. -/
def installCurrent (fp : SymFaults) (fs : SymFS) (oldTarget newTarget : String) :
    String × Bool × SymFS :=
  let fs3 : SymFS := { fs with tmpCur := none }
  if fp.curSymlinkFail ∨ newTarget = "" then (oldTarget, true, fs3)
  else
    let fs4 : SymFS := { fs3 with tmpCur := some newTarget }
    if fp.curRenameFail then (oldTarget, true, { fs4 with tmpCur := none })
    else (oldTarget, false, { fs4 with current := some newTarget, tmpCur := none })

/-- `UpdateSymlinks` from `layout.go`: records the old `current` target,
promotes it to `previous` via temp-plus-rename, then installs the new
`current` via temp-plus-rename.  Returns `(oldTarget, errored, fs)`. -/
def updateSymlinks (fp : SymFaults) (fs : SymFS) (newTarget : String) :
    String × Bool × SymFS :=
  if fp.ensureDirsFail then ("", true, fs)
  else if (promotePrevious fp fs (fs.current.getD "")).1 then
    (fs.current.getD "", true, (promotePrevious fp fs (fs.current.getD "")).2)
  else
    installCurrent fp (promotePrevious fp fs (fs.current.getD "")).2
      (fs.current.getD "") newTarget

/-- `promotePrevious` never touches `current`, and leaves `previous`
either untouched or (for a non-empty old target) repointed to it. -/
theorem promotePrevious_spec (fp : SymFaults) (fs : SymFS) (oldTarget : String) :
    (promotePrevious fp fs oldTarget).2.current = fs.current ∧
    ((promotePrevious fp fs oldTarget).2.previous = fs.previous ∨
      (oldTarget ≠ "" ∧ (promotePrevious fp fs oldTarget).2.previous = some oldTarget)) := by
  unfold promotePrevious
  by_cases h : oldTarget ≠ ""
  · rw [if_pos h]
    cases h2 : fp.prevSymlinkFail
    · cases h3 : fp.prevRenameFail <;> simp [h]
    · simp
  · rw [if_neg h]
    exact ⟨rfl, Or.inl rfl⟩

/-- `installCurrent` leaves both links untouched on failure and only
rewrites `current` on success. -/
theorem installCurrent_spec (fp : SymFaults) (fs : SymFS) (oldTarget newTarget : String) :
    (installCurrent fp fs oldTarget newTarget).2.2.previous = fs.previous ∧
    ((installCurrent fp fs oldTarget newTarget).2.1 = true →
      (installCurrent fp fs oldTarget newTarget).2.2.current = fs.current) ∧
    ((installCurrent fp fs oldTarget newTarget).2.1 = false →
      (installCurrent fp fs oldTarget newTarget).2.2.current = some newTarget) := by
  unfold installCurrent
  by_cases h : fp.curSymlinkFail = true ∨ newTarget = ""
  · rw [if_pos h]
    exact ⟨rfl, fun _ => rfl, fun hc => by cases hc⟩
  · rw [if_neg h]
    cases h2 : fp.curRenameFail
    · simp
    · simp

example :
    updateSymlinks noFaults ⟨some "/h/releases/1.0.0", none, none, none⟩ "/h/releases/2.0.0"
      = ("/h/releases/1.0.0", false,
          ⟨some "/h/releases/2.0.0", some "/h/releases/1.0.0", none, none⟩) := by decide
example :
    updateSymlinks noFaults ⟨none, none, none, none⟩ "/h/releases/2.0.0"
      = ("", false, ⟨some "/h/releases/2.0.0", none, none, none⟩) := by decide

/-- C3 counterexample: with `current → /h/releases/2.0.0` and
`previous → /h/releases/1.0.0`, a failure injected at the
`os.Symlink` call for the new `current` makes `UpdateSymlinks` return
an error after `previous` has already been repointed to the old current
target, so the pre-call `previous` is lost. -/
theorem c3_previous_clobbered_on_late_failure :
    (updateSymlinks ⟨false, false, false, true, false⟩
        ⟨some "/h/releases/2.0.0", some "/h/releases/1.0.0", none, none⟩
        "/h/releases/3.0.0").2.1 = true ∧
    (updateSymlinks ⟨false, false, false, true, false⟩
        ⟨some "/h/releases/2.0.0", some "/h/releases/1.0.0", none, none⟩
        "/h/releases/3.0.0").2.2.previous = some "/h/releases/2.0.0" ∧
    some "/h/releases/2.0.0" ≠ some "/h/releases/1.0.0" := by
  refine ⟨by decide, by decide, by decide⟩

/-- C3 (amended): when `UpdateSymlinks` returns an error the `current`
symlink still resolves to exactly its pre-call target, but the
`previous` symlink may already have been repointed: it holds either its
pre-call target or the pre-call `current` target. -/
theorem c3_update_symlinks_failure (fp : SymFaults) (fs : SymFS) (newTarget : String)
    (herr : (updateSymlinks fp fs newTarget).2.1 = true) :
    (updateSymlinks fp fs newTarget).2.2.current = fs.current ∧
    ((updateSymlinks fp fs newTarget).2.2.previous = fs.previous ∨
      (updateSymlinks fp fs newTarget).2.2.previous = fs.current) := by
  have hsome : fs.current.getD "" ≠ "" → fs.current = some (fs.current.getD "") := by
    intro hne
    cases hc : fs.current with
    | none => rw [hc] at hne; simp at hne
    | some v => rfl
  unfold updateSymlinks at herr ⊢
  by_cases h1 : fp.ensureDirsFail = true
  · rw [if_pos h1]
    exact ⟨rfl, Or.inl rfl⟩
  · rw [if_neg h1] at herr ⊢
    have hp := promotePrevious_spec fp fs (fs.current.getD "")
    rcases hstep : promotePrevious fp fs (fs.current.getD "") with ⟨errored, fs'⟩
    cases errored with
    | true =>
      rw [hstep] at hp
      refine ⟨hp.1, ?_⟩
      rcases hp.2 with h | ⟨hne, h⟩
      · exact Or.inl h
      · exact Or.inr (h.trans (hsome hne).symm)
    | false =>
      rw [hstep] at hp herr
      have hi := installCurrent_spec fp fs' (fs.current.getD "") newTarget
      have herr' : (installCurrent fp fs' (fs.current.getD "") newTarget).2.1 = true := herr
      refine ⟨?_, ?_⟩
      · exact (hi.2.1 herr').trans hp.1
      · rcases hp.2 with h | ⟨hne, h⟩
        · exact Or.inl (hi.1.trans h)
        · exact Or.inr ((hi.1.trans h).trans (hsome hne).symm)

/-- C3 witness: the amended statement at the counterexample's input:
`current` is untouched while `previous` was repointed to the pre-call
current target. -/
theorem c3_update_symlinks_failure_witness :
    (updateSymlinks ⟨false, false, false, true, false⟩
        ⟨some "/h/releases/2.0.0", some "/h/releases/1.0.0", none, none⟩
        "/h/releases/3.0.0").2.2.current = some "/h/releases/2.0.0" ∧
    ((updateSymlinks ⟨false, false, false, true, false⟩
        ⟨some "/h/releases/2.0.0", some "/h/releases/1.0.0", none, none⟩
        "/h/releases/3.0.0").2.2.previous = some "/h/releases/1.0.0" ∨
      (updateSymlinks ⟨false, false, false, true, false⟩
        ⟨some "/h/releases/2.0.0", some "/h/releases/1.0.0", none, none⟩
        "/h/releases/3.0.0").2.2.previous = some "/h/releases/2.0.0") :=
  c3_update_symlinks_failure ⟨false, false, false, true, false⟩
    ⟨some "/h/releases/2.0.0", some "/h/releases/1.0.0", none, none⟩
    "/h/releases/3.0.0" (by decide)

/-- A fault-free `UpdateSymlinks` on a non-empty current link promotes
it to `previous` and installs the new target as `current`. -/
theorem updateSymlinks_noFaults_some (fs : SymFS) (t newTarget : String)
    (hcur : fs.current = some t) (ht : t ≠ "") (hnt : newTarget ≠ "") :
    updateSymlinks noFaults fs newTarget = (t, false, ⟨some newTarget, some t, none, none⟩) := by
  simp [updateSymlinks, promotePrevious, installCurrent, noFaults, hcur, ht, hnt]

/-! ## Status store (`internal/agent/update`, `update.go`)

Timestamps are modelled as `Nat` (0 = Go's zero `time.Time`); each
handler run stamps a single oracle-supplied `now`. -/

structure UpdateStatus where
  currentVersion : String
  previousVersion : String
  lastSuccessVersion : String
  lastSuccessAt : Nat
  lastAttemptVersion : String
  lastAttemptAt : Nat
  lastErrorCode : String
  lastErrorMessage : String
  lastErrorAt : Nat
  inProgress : Bool
  inProgressStartedAt : Nat
  deriving DecidableEq

/-- The zero record `LoadStatus` returns for a missing file. -/
def zeroUpdateStatus : UpdateStatus := ⟨"", "", "", 0, "", 0, "", "", 0, false, 0⟩

/-- `UpdateStatus.MarkAttempt`. -/
def UpdateStatus.markAttempt (s : UpdateStatus) (now : Nat) : UpdateStatus :=
  { s with
    inProgress := true
    inProgressStartedAt := now
    lastAttemptVersion := ""
    lastAttemptAt := now
    lastErrorCode := ""
    lastErrorMessage := ""
    lastErrorAt := 0 }

/-- `UpdateStatus.MarkSuccess`. -/
def UpdateStatus.markSuccess (s : UpdateStatus) (current previous : String)
    (now : Nat) : UpdateStatus :=
  { s with
    currentVersion := current
    previousVersion := previous
    lastSuccessVersion := current
    lastSuccessAt := now
    inProgress := false }

/-- `UpdateStatus.MarkFailure`. -/
def UpdateStatus.markFailure (s : UpdateStatus) (code msg : String)
    (now : Nat) : UpdateStatus :=
  { s with
    lastErrorCode := code
    lastErrorMessage := msg
    lastErrorAt := now
    inProgress := false }

/-- `filepath.Base`. -/
def filepathBase (p : String) : String :=
  if p = "" then "."
  else
    let trimmed := (p.toList.reverse.dropWhile (fun c => c = '/')).reverse
    if trimmed = [] then "/"
    else String.mk ((trimmed.reverse.takeWhile (fun c => c ≠ '/')).reverse)

/-- `VersionFromTarget` from `layout.go`. -/
def versionFromTarget (target : String) : String :=
  if target = "" then "" else filepathBase target

example : versionFromTarget "/h/releases/2.0.0" = "2.0.0" := by decide
example : versionFromTarget "" = "" := by decide

/-! ## Admin update handlers (`internal/agent/admin/server.go`)

`World` is the durable state the handlers touch: the symlink pair, the
lock file and the status document.  External effects (network fetches,
signature verification, downloads, restarts, health probes) and
injected filesystem faults are supplied by an oracle per call; saves
whose errors the code checks have their own failure flags, while
best-effort saves (errors discarded with `_ =`) are modelled as
succeeding. -/

structure Artifact where
  url : String
  sha256 : String
  deriving DecidableEq

structure Artifacts where
  chat : Artifact
  mcp : Artifact
  deriving DecidableEq

structure VersionRange where
  min : String
  max : String
  deriving DecidableEq

structure Manifest where
  name : String
  channel : String
  version : String
  notes : String
  revoked : Bool
  artifacts : Artifacts
  compatibility : VersionRange
  deriving DecidableEq

structure World where
  fs : SymFS
  lockExists : Bool
  statusFile : Option UpdateStatus
  deriving DecidableEq

/-- Responses the handlers produce: the apply success envelope, the
rollback success envelope, or an error with HTTP status and code. -/
inductive Response where
  | ok (updatedTo : String) (warnings : List String)
  | rolledBack (target : String)
  | err (status : Nat) (code : String) (msg : String)
  deriving DecidableEq

/-- `update.SaveStatus` on the world (the success case). -/
def saveStatusW (st : UpdateStatus) (w : World) : World :=
  { w with statusFile := some st }

/-- Return path after the lock was acquired but before the deferred
status save was registered: only the deferred unlock runs. -/
def finishLocked (w : World) (r : Response) : Response × World :=
  (r, { w with lockExists := false })

/-- Return path of the apply handler after both defers are registered:
the deferred save persists the final `status` with `in_progress=false`,
then the deferred unlock removes the lock file. -/
def finishApply (st : UpdateStatus) (w : World) (r : Response) : Response × World :=
  (r, { w with statusFile := some { st with inProgress := false }, lockExists := false })

/-- Per-call outcomes of the apply handler's external effects. -/
structure ApplyOracle where
  method : String
  ignoreCompat : Bool
  home : String
  lockIOFail : Bool
  load1Fail : Bool
  saveAttemptFail : Bool
  baseURL : String
  pubKey : String
  coreURL : String
  channel : String
  fetch : Except String Manifest
  verifyOK : Bool
  saveTargetFail : Bool
  coreVersion : Except String String
  stageCreateFail : Bool
  downloadChatErr : Option String
  downloadMCPErr : Option String
  renameFail : Bool
  compatLinksFail : Bool
  switchFaults : SymFaults
  saveSwitchFail : Bool
  restartFail : Bool
  healthFail : Bool
  healthMsg : String
  rollbackFaults : SymFaults
  reloadFail : Bool
  saveSuccessFail : Bool
  now : Nat

/-- `updateApplyHandler`, STAGE through SUCCESS: stage directory
creation, both downloads (download + SHA-256 + chmod), promote,
compat symlinks, SWITCH, RECORD_SWITCH, RESTART, HEALTH with automatic
rollback, and SUCCESS. -/
def applyStage (o : ApplyOracle) (m : Manifest) (st : UpdateStatus)
    (warnings : List String) (w : World) : Response × World :=
  if o.stageCreateFail then
    let st2 := st.markFailure "STAGE_CREATE_FAILED" "stage error" o.now
    finishApply st2 (saveStatusW st2 w) (.err 500 "STAGE_CREATE_FAILED" "stage error")
  else
    match o.downloadChatErr with
    | some e =>
      let st2 := st.markFailure "UPDATE_DOWNLOAD_FAILED" e o.now
      finishApply st2 (saveStatusW st2 w) (.err 500 "UPDATE_DOWNLOAD_FAILED" e)
    | none =>
      match o.downloadMCPErr with
      | some e =>
        let st2 := st.markFailure "UPDATE_DOWNLOAD_FAILED" e o.now
        finishApply st2 (saveStatusW st2 w) (.err 500 "UPDATE_DOWNLOAD_FAILED" e)
      | none =>
        if o.renameFail then
          let st2 := st.markFailure "FINALIZE_FAILED" "rename error" o.now
          finishApply st2 (saveStatusW st2 w) (.err 500 "FINALIZE_FAILED" "rename error")
        else if o.compatLinksFail then
          let st2 := st.markFailure "FINALIZE_FAILED" "compat symlink error" o.now
          finishApply st2 (saveStatusW st2 w) (.err 500 "FINALIZE_FAILED" "compat symlink error")
        else
          let releaseDir := o.home ++ "/releases/" ++ m.version
          let sw := updateSymlinks o.switchFaults w.fs releaseDir
          let w2 := { w with fs := sw.2.2 }
          if sw.2.1 then
            let st2 := st.markFailure "SYMLINK_UPDATE_FAILED" "symlink error" o.now
            finishApply st2 (saveStatusW st2 w2) (.err 500 "SYMLINK_UPDATE_FAILED" "symlink error")
          else
            let oldTarget := sw.1
            let previousVersion := versionFromTarget oldTarget
            let st2 := { st with currentVersion := m.version, previousVersion := previousVersion }
            if o.saveSwitchFail then
              finishApply st2 w2 (.err 500 "STATUS_SAVE_FAILED" "save error")
            else
              let w3 := saveStatusW st2 w2
              if o.restartFail then
                let st3 := st2.markFailure "RESTART_FAILED" "restart error" o.now
                finishApply st3 (saveStatusW st3 w3) (.err 500 "RESTART_FAILED" "restart error")
              else if o.healthFail then
                let rb := updateSymlinks o.rollbackFaults w3.fs oldTarget
                let w4 := { w3 with fs := rb.2.2 }
                if o.reloadFail then
                  finishApply st2 w4 (.err 500 "STATUS_LOAD_FAILED" "load error")
                else
                  let reloaded := w4.statusFile.getD zeroUpdateStatus
                  let r1 := reloaded.markFailure "UPDATE_FAILED_ROLLED_BACK" o.healthMsg o.now
                  let r2 := { r1 with
                    currentVersion := previousVersion
                    previousVersion := m.version }
                  let r3 := if r2.lastAttemptVersion = ""
                    then { r2 with lastAttemptVersion := m.version, lastAttemptAt := o.now }
                    else r2
                  finishApply r3 (saveStatusW r3 w4)
                    (.err 500 "UPDATE_FAILED_ROLLED_BACK" o.healthMsg)
              else
                let st3 := st2.markSuccess m.version previousVersion o.now
                if o.saveSuccessFail then
                  finishApply st3 w3 (.err 500 "STATUS_SAVE_FAILED" "save error")
                else
                  finishApply st3 (saveStatusW st3 w3) (.ok m.version warnings)

/-- `updateApplyHandler`, COMPAT step: core URL missing / unreachable /
range mismatch, each bypassable via ignore-compat with a warning. -/
def applyCompat (o : ApplyOracle) (m : Manifest) (st : UpdateStatus)
    (w : World) : Response × World :=
  if o.coreURL = "" then
    if o.ignoreCompat then
      applyStage o m st ["compatibility ignored: PAYRAM_CORE_URL not set"] w
    else
      let st2 := st.markFailure "CORE_URL_MISSING" "payram core URL not configured" o.now
      finishApply st2 (saveStatusW st2 w)
        (.err 500 "CORE_URL_MISSING" "payram core URL not configured")
  else
    match o.coreVersion with
    | .error e =>
      if o.ignoreCompat then
        applyStage o m st ["compatibility ignored: core unreachable (" ++ e ++ ")"] w
      else
        let st2 := st.markFailure "CORE_UNREACHABLE" e o.now
        finishApply st2 (saveStatusW st2 w) (.err 500 "CORE_UNREACHABLE" e)
    | .ok cv =>
      let compat := isCompatible cv m.compatibility.min m.compatibility.max
      if compat.1 then applyStage o m st [] w
      else if o.ignoreCompat then
        applyStage o m st ["compatibility ignored: " ++ compat.2] w
      else
        let reason := if compat.2 = "" then "incompatible payram-core version" else compat.2
        let st2 := st.markFailure "INCOMPATIBLE_CORE" reason o.now
        finishApply st2 (saveStatusW st2 w) (.err 400 "INCOMPATIBLE_CORE" reason)

/-- `updateApplyHandler` from `server.go`: method check, lock
acquisition, MARK_ATTEMPT, configuration checks, FETCH, VERIFY,
RECORD_TARGET, CHECK_REVOKED, then COMPAT and the staged phases. -/
def updateApplyHandler (o : ApplyOracle) (w : World) : Response × World :=
  if o.method ≠ "POST" then (.err 405 "METHOD_NOT_ALLOWED" "only POST allowed", w)
  else if w.lockExists then (.err 409 "UPDATE_IN_PROGRESS" "update already in progress", w)
  else if o.lockIOFail then (.err 500 "LOCK_FAILED" "lock error", w)
  else
    let w1 := { w with lockExists := true }
    if o.load1Fail then finishLocked w1 (.err 500 "STATUS_LOAD_FAILED" "load error")
    else
      let st1 := (w1.statusFile.getD zeroUpdateStatus).markAttempt o.now
      if o.saveAttemptFail then finishLocked w1 (.err 500 "STATUS_SAVE_FAILED" "save error")
      else
        let w2 := saveStatusW st1 w1
        if o.baseURL = "" then
          finishApply st1 w2 (.err 500 "UPDATE_BASE_URL_MISSING" "update base URL not configured")
        else if o.pubKey = "" then
          finishApply st1 w2 (.err 500 "UPDATE_PUBKEY_MISSING" "update public key not configured")
        else
          match o.fetch with
          | .error e =>
            let st2 := st1.markFailure "UPDATE_FETCH_FAILED" e o.now
            finishApply st2 (saveStatusW st2 w2) (.err 500 "UPDATE_FETCH_FAILED" e)
          | .ok m =>
            if o.verifyOK = false then
              let st2 := st1.markFailure "SIGNATURE_INVALID" "signature verification failed" o.now
              finishApply st2 (saveStatusW st2 w2)
                (.err 500 "SIGNATURE_INVALID" "signature verification failed")
            else
              let st2 := { st1 with lastAttemptVersion := m.version }
              if o.saveTargetFail then
                finishApply st2 w2 (.err 500 "STATUS_SAVE_FAILED" "save error")
              else
                let w3 := saveStatusW st2 w2
                if m.revoked then
                  let st3 := st2.markFailure "REVOKED_RELEASE" "release revoked" o.now
                  finishApply st3 (saveStatusW st3 w3) (.err 400 "REVOKED_RELEASE" "release revoked")
                else applyCompat o m st2 w3

/-- Per-call outcomes of the rollback handler's external effects. -/
structure RollbackOracle where
  method : String
  lockIOFail : Bool
  loadFail : Bool
  readPrevFail : Bool
  faults : SymFaults
  restartFail : Bool
  healthFail : Bool
  saveFail : Bool
  now : Nat

/-- `updateRollbackHandler`, RESTART onwards: restart both children,
health-check, then update the status document's version fields and
respond with `rolled_back_to`. -/
def rollbackAfterSwitch (o : RollbackOracle) (st1 : UpdateStatus)
    (prevTarget oldCurrent : String) (w3 : World) : Response × World :=
  if o.restartFail then
    let st2 := st1.markFailure "RESTART_FAILED" "restart error" o.now
    finishLocked (saveStatusW st2 w3) (.err 500 "RESTART_FAILED" "restart error")
  else if o.healthFail then
    let st2 := st1.markFailure "ROLLBACK_HEALTH_FAILED" "health error" o.now
    finishLocked (saveStatusW st2 w3) (.err 500 "ROLLBACK_HEALTH_FAILED" "health error")
  else
    let st2a := { st1 with
      currentVersion := versionFromTarget prevTarget
      previousVersion := versionFromTarget oldCurrent
      inProgress := false }
    let st2 := if st2a.lastAttemptVersion = ""
      then { st2a with lastAttemptVersion := st2a.currentVersion, lastAttemptAt := o.now }
      else st2a
    if o.saveFail then finishLocked w3 (.err 500 "STATUS_SAVE_FAILED" "save error")
    else finishLocked (saveStatusW st2 w3) (.rolledBack (versionFromTarget prevTarget))

/-- `updateRollbackHandler` from `server.go`.  Unlike apply, the only
deferred action is the unlock; the handler's best-effort saves are
modelled as succeeding. -/
def updateRollbackHandler (o : RollbackOracle) (w : World) : Response × World :=
  if o.method ≠ "POST" then (.err 405 "METHOD_NOT_ALLOWED" "only POST allowed", w)
  else if w.lockExists then (.err 409 "UPDATE_IN_PROGRESS" "update already in progress", w)
  else if o.lockIOFail then (.err 500 "LOCK_FAILED" "lock error", w)
  else
    let w1 := { w with lockExists := true }
    if o.loadFail then finishLocked w1 (.err 500 "STATUS_LOAD_FAILED" "load error")
    else
      let st1 := (w1.statusFile.getD zeroUpdateStatus).markAttempt o.now
      let w2 := saveStatusW st1 w1
      if o.readPrevFail then
        let st2 := st1.markFailure "ROLLBACK_FAILED" "readlink error" o.now
        finishLocked (saveStatusW st2 w2) (.err 500 "ROLLBACK_FAILED" "readlink error")
      else
        let prevTarget := w2.fs.previous.getD ""
        if prevTarget = "" then
          let st2 := st1.markFailure "NO_PREVIOUS_VERSION" "no previous version to roll back to" o.now
          finishLocked (saveStatusW st2 w2) (.err 400 "NO_PREVIOUS_VERSION" "no previous version")
        else
          let sw := updateSymlinks o.faults w2.fs prevTarget
          let w3 := { w2 with fs := sw.2.2 }
          if sw.2.1 then
            let st2 := st1.markFailure "SYMLINK_UPDATE_FAILED" "symlink error" o.now
            finishLocked (saveStatusW st2 w3) (.err 500 "SYMLINK_UPDATE_FAILED" "symlink error")
          else rollbackAfterSwitch o st1 prevTarget sw.1 w3

/-- Recognizes the `UPDATE_IN_PROGRESS` conflict response. -/
def isInProgressResp : Response → Bool
  | .err _ code _ => code == "UPDATE_IN_PROGRESS"
  | _ => false

theorem applyStage_unlocks (o : ApplyOracle) (m : Manifest) (st : UpdateStatus)
    (warnings : List String) (w : World) :
    (applyStage o m st warnings w).2.lockExists = false := by
  unfold applyStage
  (repeat' (first | split | dsimp only)) <;> rfl

theorem applyCompat_unlocks (o : ApplyOracle) (m : Manifest) (st : UpdateStatus)
    (w : World) : (applyCompat o m st w).2.lockExists = false := by
  unfold applyCompat
  (repeat' (first | split | dsimp only)) <;> first
    | exact applyStage_unlocks _ _ _ _ _
    | rfl

theorem applyHandler_unlocks (o : ApplyOracle) (w : World)
    (h : w.lockExists = false) :
    (updateApplyHandler o w).2.lockExists = false := by
  unfold updateApplyHandler
  (repeat' (first | split | dsimp only)) <;> first
    | exact h
    | exact applyCompat_unlocks _ _ _ _
    | rfl

theorem rollbackAfterSwitch_unlocks (o : RollbackOracle) (st1 : UpdateStatus)
    (prevTarget oldCurrent : String) (w3 : World) :
    (rollbackAfterSwitch o st1 prevTarget oldCurrent w3).2.lockExists = false := by
  unfold rollbackAfterSwitch
  (repeat' (first | split | dsimp only)) <;> rfl

theorem rollbackHandler_unlocks (o : RollbackOracle) (w : World)
    (h : w.lockExists = false) :
    (updateRollbackHandler o w).2.lockExists = false := by
  unfold updateRollbackHandler
  (repeat' (first | split | dsimp only)) <;> first
    | exact h
    | exact rollbackAfterSwitch_unlocks _ _ _ _ _
    | rfl

theorem applyStage_no_conflict (o : ApplyOracle) (m : Manifest) (st : UpdateStatus)
    (warnings : List String) (w : World) :
    isInProgressResp (applyStage o m st warnings w).1 = false := by
  unfold applyStage
  (repeat' (first | split | dsimp only)) <;> rfl

theorem applyCompat_no_conflict (o : ApplyOracle) (m : Manifest) (st : UpdateStatus)
    (w : World) : isInProgressResp (applyCompat o m st w).1 = false := by
  unfold applyCompat
  (repeat' (first | split | dsimp only)) <;> first
    | exact applyStage_no_conflict _ _ _ _ _
    | rfl

theorem applyHandler_no_conflict (o : ApplyOracle) (w : World)
    (h : w.lockExists = false) :
    isInProgressResp (updateApplyHandler o w).1 = false := by
  unfold updateApplyHandler
  (repeat' (first | split | dsimp only)) <;> first
    | exact applyCompat_no_conflict _ _ _ _
    | rfl
    | simp_all

theorem rollbackAfterSwitch_no_conflict (o : RollbackOracle) (st1 : UpdateStatus)
    (prevTarget oldCurrent : String) (w3 : World) :
    isInProgressResp (rollbackAfterSwitch o st1 prevTarget oldCurrent w3).1 = false := by
  unfold rollbackAfterSwitch
  (repeat' (first | split | dsimp only)) <;> rfl

theorem rollbackHandler_no_conflict (o : RollbackOracle) (w : World)
    (h : w.lockExists = false) :
    isInProgressResp (updateRollbackHandler o w).1 = false := by
  unfold updateRollbackHandler
  (repeat' (first | split | dsimp only)) <;> first
    | exact rollbackAfterSwitch_no_conflict _ _ _ _ _
    | rfl
    | simp_all

/-- C9: every apply or rollback invocation that acquired the update
lock removes the lock file again on every return path (the deferred
unlock), so a later apply or rollback on the resulting world never
fails with `UPDATE_IN_PROGRESS` on account of an earlier returned
call. -/
theorem c9_lock_released_no_stale_conflict :
    (∀ (o : ApplyOracle) (w : World), w.lockExists = false →
      (updateApplyHandler o w).2.lockExists = false)
    ∧ (∀ (o : RollbackOracle) (w : World), w.lockExists = false →
      (updateRollbackHandler o w).2.lockExists = false)
    ∧ (∀ (o o' : ApplyOracle) (w : World), w.lockExists = false →
      isInProgressResp (updateApplyHandler o' (updateApplyHandler o w).2).1 = false)
    ∧ (∀ (o : ApplyOracle) (o' : RollbackOracle) (w : World), w.lockExists = false →
      isInProgressResp (updateRollbackHandler o' (updateApplyHandler o w).2).1 = false)
    ∧ (∀ (o : RollbackOracle) (o' : ApplyOracle) (w : World), w.lockExists = false →
      isInProgressResp (updateApplyHandler o' (updateRollbackHandler o w).2).1 = false)
    ∧ (∀ (o o' : RollbackOracle) (w : World), w.lockExists = false →
      isInProgressResp (updateRollbackHandler o' (updateRollbackHandler o w).2).1 = false) := by
  refine ⟨applyHandler_unlocks, rollbackHandler_unlocks, ?_, ?_, ?_, ?_⟩
  · intro o o' w h
    exact applyHandler_no_conflict o' _ (applyHandler_unlocks o w h)
  · intro o o' w h
    exact rollbackHandler_no_conflict o' _ (applyHandler_unlocks o w h)
  · intro o o' w h
    exact applyHandler_no_conflict o' _ (rollbackHandler_unlocks o w h)
  · intro o o' w h
    exact rollbackHandler_no_conflict o' _ (rollbackHandler_unlocks o w h)

/-- Concrete inputs used by the handler witnesses. -/
def sampleManifest : Manifest :=
  ⟨"payram-analytics", "stable", "2.0.0", "", false, ⟨⟨"u1", "s1"⟩, ⟨"u2", "s2"⟩⟩, ⟨"", ""⟩⟩

def sampleApplyOracle : ApplyOracle :=
  ⟨"POST", true, "/h", false, false, false, "http://updates", "pubkey", "", "",
    .ok sampleManifest, true, false, .error "unreachable", false, none, none,
    false, false, noFaults, false, false, true, "health failed", noFaults,
    false, false, 1⟩

def sampleRollbackOracle : RollbackOracle :=
  ⟨"POST", false, false, false, noFaults, false, false, false, 1⟩

def sampleWorld : World :=
  ⟨⟨some "/h/releases/1.0.0", none, none, none⟩, false,
    some { zeroUpdateStatus with currentVersion := "1.0.0" }⟩

/-- C9 witness: at concrete inputs, the first apply call releases the
lock and a second apply against the resulting world is not rejected
with `UPDATE_IN_PROGRESS`. -/
theorem c9_lock_released_no_stale_conflict_witness :
    (updateApplyHandler sampleApplyOracle sampleWorld).2.lockExists = false ∧
    isInProgressResp (updateApplyHandler sampleApplyOracle
      (updateApplyHandler sampleApplyOracle sampleWorld).2).1 = false :=
  ⟨c9_lock_released_no_stale_conflict.1 sampleApplyOracle sampleWorld rfl,
   c9_lock_released_no_stale_conflict.2.2.1 sampleApplyOracle sampleApplyOracle
     sampleWorld rfl⟩

/-- The COMPAT gate passes (possibly via ignore-compat) exactly when
the apply handler proceeds to the STAGE step. -/
def compatPasses (o : ApplyOracle) (m : Manifest) : Bool :=
  if o.coreURL = "" then o.ignoreCompat
  else
    match o.coreVersion with
    | .error _ => o.ignoreCompat
    | .ok cv => (isCompatible cv m.compatibility.min m.compatibility.max).1 || o.ignoreCompat

/-- A non-empty release directory path. -/
theorem releaseDir_ne_empty (home version : String) :
    home ++ "/releases/" ++ version ≠ "" := by
  intro hcon
  have hlen := congrArg String.length hcon
  rw [String.length_append, String.length_append] at hlen
  have h10 : ("/releases/" : String).length = 10 := rfl
  have h0 : ("" : String).length = 0 := rfl
  rw [h10, h0] at hlen
  omega

theorem applyStage_health_auto_rollback (o : ApplyOracle) (m : Manifest)
    (st : UpdateStatus) (warnings : List String) (w : World) (t : String)
    (h1 : o.stageCreateFail = false) (h2 : o.downloadChatErr = none)
    (h3 : o.downloadMCPErr = none) (h4 : o.renameFail = false)
    (h5 : o.compatLinksFail = false) (h6 : o.switchFaults = noFaults)
    (h7 : o.saveSwitchFail = false) (h8 : o.restartFail = false)
    (h9 : o.healthFail = true) (h10 : o.rollbackFaults = noFaults)
    (h11 : o.reloadFail = false)
    (hcur : w.fs.current = some t) (ht : t ≠ "") :
    (applyStage o m st warnings w).1 = .err 500 "UPDATE_FAILED_ROLLED_BACK" o.healthMsg ∧
    (applyStage o m st warnings w).2.fs.current = some t ∧
    ∃ st', (applyStage o m st warnings w).2.statusFile = some st' ∧
      st'.lastErrorCode = "UPDATE_FAILED_ROLLED_BACK" ∧
      st'.currentVersion = versionFromTarget t ∧
      st'.previousVersion = m.version ∧
      st'.inProgress = false := by
  have hrd : (o.home ++ "/releases/" ++ m.version) ≠ "" := releaseDir_ne_empty o.home m.version
  have hsw := updateSymlinks_noFaults_some w.fs t (o.home ++ "/releases/" ++ m.version) hcur ht hrd
  have hrb := updateSymlinks_noFaults_some
    ⟨some (o.home ++ "/releases/" ++ m.version), some t, none, none⟩
    (o.home ++ "/releases/" ++ m.version) t rfl hrd ht
  unfold applyStage
  simp only [h1, h2, h3, h4, h5, h6, h7, h8, h9, h10, h11, hsw, saveStatusW,
    Bool.false_eq_true, if_false, if_true, eq_self_iff_true]
  simp only [hrb]
  refine ⟨rfl, rfl, ?_⟩
  split
  · exact ⟨_, rfl, rfl, rfl, rfl, rfl⟩
  · exact ⟨_, rfl, rfl, rfl, rfl, rfl⟩

theorem applyCompat_health_auto_rollback (o : ApplyOracle) (m : Manifest)
    (st : UpdateStatus) (w : World) (t : String)
    (hcp : compatPasses o m = true)
    (h1 : o.stageCreateFail = false) (h2 : o.downloadChatErr = none)
    (h3 : o.downloadMCPErr = none) (h4 : o.renameFail = false)
    (h5 : o.compatLinksFail = false) (h6 : o.switchFaults = noFaults)
    (h7 : o.saveSwitchFail = false) (h8 : o.restartFail = false)
    (h9 : o.healthFail = true) (h10 : o.rollbackFaults = noFaults)
    (h11 : o.reloadFail = false)
    (hcur : w.fs.current = some t) (ht : t ≠ "") :
    (applyCompat o m st w).1 = .err 500 "UPDATE_FAILED_ROLLED_BACK" o.healthMsg ∧
    (applyCompat o m st w).2.fs.current = some t ∧
    ∃ st', (applyCompat o m st w).2.statusFile = some st' ∧
      st'.lastErrorCode = "UPDATE_FAILED_ROLLED_BACK" ∧
      st'.currentVersion = versionFromTarget t ∧
      st'.previousVersion = m.version ∧
      st'.inProgress = false := by
  by_cases hc : o.coreURL = ""
  · have hic : o.ignoreCompat = true := by simpa [compatPasses, hc] using hcp
    have h := applyStage_health_auto_rollback o m st
      ["compatibility ignored: PAYRAM_CORE_URL not set"] w t
      h1 h2 h3 h4 h5 h6 h7 h8 h9 h10 h11 hcur ht
    simpa [applyCompat, hc, hic] using h
  · cases hcv : o.coreVersion with
    | error e =>
      have hic : o.ignoreCompat = true := by simpa [compatPasses, hc, hcv] using hcp
      have h := applyStage_health_auto_rollback o m st
        ["compatibility ignored: core unreachable (" ++ e ++ ")"] w t
        h1 h2 h3 h4 h5 h6 h7 h8 h9 h10 h11 hcur ht
      simpa [applyCompat, hc, hcv, hic] using h
    | ok cv =>
      by_cases hcompat : (isCompatible cv m.compatibility.min m.compatibility.max).1 = true
      · have h := applyStage_health_auto_rollback o m st [] w t
          h1 h2 h3 h4 h5 h6 h7 h8 h9 h10 h11 hcur ht
        simpa [applyCompat, hc, hcv, hcompat] using h
      · have hic : o.ignoreCompat = true := by
          have hx := hcp
          simp [compatPasses, hc, hcv, hcompat] at hx
          exact hx
        have h := applyStage_health_auto_rollback o m st
          ["compatibility ignored: "
            ++ (isCompatible cv m.compatibility.min m.compatibility.max).2] w t
          h1 h2 h3 h4 h5 h6 h7 h8 h9 h10 h11 hcur ht
        simpa [applyCompat, hc, hcv, hcompat, hic] using h

/-- C1: an apply call that completes SWITCH and RESTART and whose
HEALTH probe fails performs the automatic rollback: it restores the
`current` symlink to the pre-switch target, reloads the status
document, records `UPDATE_FAILED_ROLLED_BACK`, swaps the version
fields so that `current_version` is again the pre-apply version and
`previous_version` is the attempted manifest version, and returns the
error to the caller.  The hypotheses select exactly those executions
(steps up to RESTART succeed, health fails, the rollback path's own
I/O succeeds) and fix the pre-apply state: `current → t` with the
status document agreeing on the version. -/
theorem c1_health_failure_auto_rollback (o : ApplyOracle) (w : World)
    (m : Manifest) (t : String)
    (hm : o.method = "POST") (hlock : w.lockExists = false)
    (hlio : o.lockIOFail = false) (hload : o.load1Fail = false)
    (hsa : o.saveAttemptFail = false) (hbase : o.baseURL ≠ "")
    (hpub : o.pubKey ≠ "") (hfetch : o.fetch = .ok m)
    (hver : o.verifyOK = true) (hst : o.saveTargetFail = false)
    (hrev : m.revoked = false) (hcp : compatPasses o m = true)
    (h1 : o.stageCreateFail = false) (h2 : o.downloadChatErr = none)
    (h3 : o.downloadMCPErr = none) (h4 : o.renameFail = false)
    (h5 : o.compatLinksFail = false) (h6 : o.switchFaults = noFaults)
    (h7 : o.saveSwitchFail = false) (h8 : o.restartFail = false)
    (h9 : o.healthFail = true) (h10 : o.rollbackFaults = noFaults)
    (h11 : o.reloadFail = false)
    (hcur : w.fs.current = some t) (ht : t ≠ "")
    (hpre : (w.statusFile.getD zeroUpdateStatus).currentVersion = versionFromTarget t) :
    (updateApplyHandler o w).1 = .err 500 "UPDATE_FAILED_ROLLED_BACK" o.healthMsg ∧
    (updateApplyHandler o w).2.fs.current = some t ∧
    ∃ st', (updateApplyHandler o w).2.statusFile = some st' ∧
      st'.lastErrorCode = "UPDATE_FAILED_ROLLED_BACK" ∧
      st'.currentVersion = (w.statusFile.getD zeroUpdateStatus).currentVersion ∧
      st'.previousVersion = m.version ∧
      st'.inProgress = false := by
  rw [hpre]
  have h := applyCompat_health_auto_rollback o m
    { (w.statusFile.getD zeroUpdateStatus).markAttempt o.now with lastAttemptVersion := m.version }
    (saveStatusW
      { (w.statusFile.getD zeroUpdateStatus).markAttempt o.now with lastAttemptVersion := m.version }
      (saveStatusW ((w.statusFile.getD zeroUpdateStatus).markAttempt o.now)
        { w with lockExists := true }))
    t hcp h1 h2 h3 h4 h5 h6 h7 h8 h9 h10 h11 (by simpa [saveStatusW] using hcur) ht
  simpa [updateApplyHandler, hm, hlock, hlio, hload, hsa, hbase, hpub, hfetch,
    hver, hst, hrev, saveStatusW] using h

/-- C1 witness: a concrete apply run against `current →
/h/releases/1.0.0` whose health probe fails: the response carries
`UPDATE_FAILED_ROLLED_BACK`, the symlink is restored and the status
document swaps the version fields. -/
theorem c1_health_failure_auto_rollback_witness :
    (updateApplyHandler sampleApplyOracle sampleWorld).1
      = .err 500 "UPDATE_FAILED_ROLLED_BACK" "health failed" ∧
    (updateApplyHandler sampleApplyOracle sampleWorld).2.fs.current
      = some "/h/releases/1.0.0" ∧
    ∃ st', (updateApplyHandler sampleApplyOracle sampleWorld).2.statusFile = some st' ∧
      st'.lastErrorCode = "UPDATE_FAILED_ROLLED_BACK" ∧
      st'.currentVersion
        = (sampleWorld.statusFile.getD zeroUpdateStatus).currentVersion ∧
      st'.previousVersion = sampleManifest.version ∧
      st'.inProgress = false :=
  c1_health_failure_auto_rollback sampleApplyOracle sampleWorld sampleManifest
    "/h/releases/1.0.0" rfl rfl rfl rfl rfl (by decide) (by decide) rfl rfl rfl rfl
    (by decide) rfl rfl rfl rfl rfl rfl rfl rfl rfl rfl rfl rfl (by decide) (by decide)

end Agent
